import Mathlib

/-!
Shallow embedding of the termplay tic-tac-toe room protocol.

The Go sources embedded here:
- `internal/db/firebase.go`: the strict `Room` type, the loose `rawRoom`
  type read from the remote store, `sanitizeRoom`, `CreateRoom`, `GetRoom`,
  `JoinRoom` (transaction body), `UpdateMove`, `RestartGame` (transaction
  body) and `GetPublicRooms`.
- the standalone server file (package `main`): `RoomData`, `checkWinner`,
  `checkDraw` and the rematch transaction body of `triggerRematchCmd`.
- `internal/ui` (`updateGame`): the client-side guard in front of
  `db.UpdateMove`.

The remote key-value store is modelled as a partial map from room codes to
raw documents; a Firebase `Get`/`Unmarshal` of an absent node yields the
zero value of the struct, which the embedding mirrors with `getRaw`.
-/

namespace TTT

/-- A value of Go type `interface{}` as it can appear in a raw board slot
read from the schema-less store: a JSON string, a JSON number (decoded by
Go as `float64`, or an `int`), or anything else.  `fmt.Sprintf "%.0f"` of a
float64 and `"%d"` of an int render the integer value, carried here as the
`Int` payload. -/
inductive JVal where
  | str (s : String)
  | numF (n : Int)
  | numI (n : Int)
  | other
deriving DecidableEq, Repr

/-- Go struct `rawRoom` (firebase.go): the loose shape used to read dirty
data from Firebase.  Field defaults are the Go zero values, which is what
`Unmarshal` leaves in place for an absent document or field. -/
structure RawRoom where
  code : String := ""
  board : List JVal := []
  turn : String := ""
  playerX : String := ""
  playerO : String := ""
  playerXName : String := ""
  playerOName : String := ""
  isPublic : Bool := false
  winner : String := ""
  winningLine : List Nat := []
  status : String := ""
  winsX : Int := 0
  winsO : Int := 0
deriving DecidableEq, Repr

/-- Go struct `Room` (firebase.go): the clean, strict structure used by the
game UI.  The Go field `Board [9]string` is a `List String` here; every
board the code constructs has 9 entries. -/
structure Room where
  code : String := ""
  board : List String := []
  turn : String := ""
  playerX : String := ""
  playerO : String := ""
  playerXName : String := ""
  playerOName : String := ""
  isPublic : Bool := false
  winner : String := ""
  winningLine : List Nat := []
  status : String := ""
  winsX : Int := 0
  winsO : Int := 0
deriving DecidableEq, Repr

/-- The all-empty board `[9]string{" ", ..., " "}`. -/
def emptyBoard : List String :=
  [" ", " ", " ", " ", " ", " ", " ", " ", " "]

/-- The `switch v := val.(type)` conversion inside `sanitizeRoom`'s board
loop: strings pass through, numbers are formatted, anything else becomes
the empty cell. -/
def cellOfJVal : JVal → String
  | .str s => s
  | .numF n => toString n
  | .numI n => toString n
  | .other => " "

/-- The board conversion of `sanitizeRoom`: start from the all-empty
default, then copy converted raw entries for indices `0 ≤ i < 9` that the
raw board actually has (`if i >= 9 { break }`). -/
def sanitizeBoard (raw : List JVal) : List String :=
  (List.range 9).map fun i =>
    match raw[i]? with
    | some v => cellOfJVal v
    | none => " "

/-- `sanitizeRoom` (firebase.go): converts a raw document to the clean
`Room`, fixing the code when missing in the body and defaulting every
board slot that fails to parse. -/
def sanitizeRoom (code : String) (raw : RawRoom) : Room :=
  { code := if raw.code = "" then code else raw.code
    board := sanitizeBoard raw.board
    turn := raw.turn
    playerX := raw.playerX
    playerO := raw.playerO
    playerXName := raw.playerXName
    playerOName := raw.playerOName
    isPublic := raw.isPublic
    winner := raw.winner
    winningLine := raw.winningLine
    status := raw.status
    winsX := raw.winsX
    winsO := raw.winsO }

/-- Serialization of a strict `Room` as it is written by `ref.Set` and read
back through the raw path: every board cell is a JSON string. -/
def roomToRaw (r : Room) : RawRoom :=
  { code := r.code
    board := r.board.map JVal.str
    turn := r.turn
    playerX := r.playerX
    playerO := r.playerO
    playerXName := r.playerXName
    playerOName := r.playerOName
    isPublic := r.isPublic
    winner := r.winner
    winningLine := r.winningLine
    status := r.status
    winsX := r.winsX
    winsO := r.winsO }

/-- The remote store: one document per room code. -/
def Store : Type := String → Option RawRoom

/-- Firebase `Get`/`Unmarshal` into a struct: an absent node leaves the
zero value. -/
def getRaw (store : Store) (code : String) : RawRoom :=
  (store code).getD {}

/-- Writing a full document at `rooms/<code>`. -/
def setRaw (store : Store) (code : String) (raw : RawRoom) : Store :=
  fun c => if c = code then some raw else store c

/-- `CreateRoom` (firebase.go): the document it writes with `ref.Set`. -/
def createRoomDoc (code pid name : String) (public : Bool) : Room :=
  { code := code
    board := emptyBoard
    turn := "X"
    playerX := pid
    playerXName := name
    isPublic := public
    status := "waiting" }

/-- `CreateRoom` (firebase.go) acting on the store. -/
def CreateRoom (store : Store) (code pid name : String) (public : Bool) : Store :=
  setRaw store code (roomToRaw (createRoomDoc code pid name public))

/-- `GetRoom` (firebase.go): fetch raw, treat an empty creator id as
"room does not exist", otherwise sanitize. -/
def GetRoom (store : Store) (code : String) : Option Room :=
  let raw := getRaw store code
  if raw.playerX = "" then none
  else some (sanitizeRoom code raw)

/-- The transaction body of `JoinRoom` (firebase.go): reject an absent
room, reject an occupied `playerO` slot held by a different id, otherwise
claim the slot and move to `playing`.  Returning `Except.error` models the
Go closure returning `(nil, err)`, which aborts the transaction and leaves
the document untouched. -/
def joinTxnBody (pid name : String) (raw : RawRoom) : Except String RawRoom :=
  if raw.playerX = "" then .error "room not found"
  else if raw.playerO ≠ "" ∧ raw.playerO ≠ pid then .error "room is full"
  else .ok { raw with playerO := pid, playerOName := name, status := "playing" }

/-- A committed Firebase transaction on `rooms/<code>`: run the body on the
current document; on success write the result, on error leave the store
unchanged and surface the error. -/
def runTxn (store : Store) (code : String)
    (fn : RawRoom → Except String RawRoom) : Store × Option String :=
  match fn (getRaw store code) with
  | .error e => (store, some e)
  | .ok raw => (setRaw store code raw, none)

/-- `JoinRoom` (firebase.go) acting on the store. -/
def JoinRoom (store : Store) (code pid name : String) : Store × Option String :=
  runTxn store code (joinTxnBody pid name)

/-- The transaction body of `RestartGame` (firebase.go): reset the board,
clear winner and winning line, force `playing` and `turn = "X"`.  No field
of the input — in particular not `Status` — is inspected. -/
def restartTxnBody (r : Room) : Room :=
  { r with
    board := emptyBoard
    winner := ""
    winningLine := []
    status := "playing"
    turn := "X" }

/-- Go struct `RoomData` (standalone server file): the room document shape
used by that implementation. -/
structure RoomData where
  board : List String := []
  turn : String := ""
  playerX : String := ""
  playerO : String := ""
  playerXName : String := ""
  playerOName : String := ""
  winner : String := ""
  status : String := ""
deriving DecidableEq, Repr

/-- The transaction body of `triggerRematchCmd` (standalone server file):
reset the board, compute the new turn from the rematch rule and the
previous winner, clear the winner and force `playing`.  `coin` carries the
draw of `rand.Intn(2)` used by the `"random"` rule. -/
def rematchTxnBody (rule prevWinner : String) (coin : Nat) (r : RoomData) : RoomData :=
  let newTurn :=
    if rule = "random" then (if coin = 0 then "O" else "X")
    else if rule = "winner" then (if prevWinner = "O" then "O" else "X")
    else "X"
  { r with
    board := emptyBoard
    turn := newTurn
    winner := ""
    status := "playing" }

/-- The 8 winning triples in the order `checkWinner` scans them:
3 rows, 3 columns, 2 diagonals. -/
def winningTriples : List (Nat × Nat × Nat) :=
  [(0, 1, 2), (3, 4, 5), (6, 7, 8),
   (0, 3, 6), (1, 4, 7), (2, 5, 8),
   (0, 4, 8), (2, 4, 6)]

/-- One board cell; the Go `[9]string` index never misses, so the default
is irrelevant on the 9-entry boards the code builds. -/
def cellAt (b : List String) (i : Nat) : String :=
  b.getD i " "

/-- The loop condition of `checkWinner`:
`b[w[0]] != " " && b[w[0]] == b[w[1]] && b[w[1]] == b[w[2]]`. -/
def tripleWon (b : List String) (w : Nat × Nat × Nat) : Bool :=
  decide (cellAt b w.1 ≠ " " ∧ cellAt b w.1 = cellAt b w.2.1 ∧
    cellAt b w.2.1 = cellAt b w.2.2)

/-- The `for _, w := range wins` loop of `checkWinner`: return the mark of
the first winning triple, or `""` after the loop. -/
def checkWinnerAux (b : List String) : List (Nat × Nat × Nat) → String
  | [] => ""
  | w :: ws => if tripleWon b w then cellAt b w.1 else checkWinnerAux b ws

/-- `checkWinner` (standalone server file). -/
def checkWinner (b : List String) : String :=
  checkWinnerAux b winningTriples

/-- `checkDraw` (standalone server file): true iff no empty cell. -/
def checkDraw (b : List String) : Bool :=
  b.all fun v => v != " "

/-- Modelled from the spec: package `internal/game` is not among the
sources; only its caller `UpdateMove` is.  `detectOutcome` "checks all 8
winning triples (3 rows, 3 columns, 2 diagonals); returns the first
matching triple in a fixed, deterministic scan order", yielding the winner
mark and the winning line.  The standalone server's `checkWinner` realises
the same scan without the line. -/
def gameCheckWinner (b : List String) : String × List Nat :=
  match winningTriples.find? (fun w => tripleWon b w) with
  | some w => (cellAt b w.1, [w.1, w.2.1, w.2.2])
  | none => ("", [])

/-- Modelled from the spec: `internal/game.CheckDraw`; "isDraw is true iff
no winner and no empty cell remains" — the no-empty-cell test, as in the
standalone server's `checkDraw`. -/
def gameCheckDraw (b : List String) : Bool :=
  b.all fun v => v != " "

/-- `UpdateMove` (firebase.go): write the current turn mark into the cell
unconditionally, then detect the outcome and either finish the game
(bumping the winner's score), finish on a draw, or flip the turn.  The Go
body performs no validation of `idx` or of the target cell. -/
def UpdateMove (idx : Nat) (r : Room) : Room :=
  let board := r.board.set idx r.turn
  let res := gameCheckWinner board
  if res.1 ≠ "" then
    { r with
      board := board
      winner := res.1
      winningLine := res.2
      status := "finished"
      winsX := if res.1 = "X" then r.winsX + 1 else r.winsX
      winsO := if res.1 = "X" then r.winsO else r.winsO + 1 }
  else if gameCheckDraw board then
    { r with board := board, status := "finished" }
  else
    { r with board := board, turn := if r.turn = "X" then "O" else "X" }

/-- The move guard of `updateGame` (internal/ui): on the space/enter key,
the index is `cursorR*3 + cursorC`, and `db.UpdateMove` is issued only when
it is the local player's turn and the target cell is empty; otherwise no
command is produced and the room is untouched. -/
def guardedMove (mySide : String) (cursorR cursorC : Nat) (r : Room) : Option Room :=
  let idx := cursorR * 3 + cursorC
  if r.turn = mySide ∧ cellAt r.board idx = " " then some (UpdateMove idx r)
  else none

/-- `GetPublicRooms` (firebase.go): filter the raw snapshot by the public
flag, sanitize each surviving document, sort by code.  The Go snapshot is a
map with unspecified iteration order; the embedding takes it as an
association list.  `sort.Slice` with `list[i].Code < list[j].Code` is
modelled by `mergeSort` on the corresponding `≤`. -/
def GetPublicRooms (rawMap : List (String × RawRoom)) : List Room :=
  let list := (rawMap.filter fun p => p.2.isPublic).map fun p => sanitizeRoom p.1 p.2
  list.mergeSort fun a b => a.code ≤ b.code

/-! ## Helper lemmas -/

theorem getRaw_setRaw (store : Store) (code : String) (raw : RawRoom) :
    getRaw (setRaw store code raw) code = raw := by
  simp [getRaw, setRaw]

theorem sanitizeRoom_isPublic (code : String) (raw : RawRoom) :
    (sanitizeRoom code raw).isPublic = raw.isPublic := rfl

theorem checkWinnerAux_eq_find (b : List String) (l : List (Nat × Nat × Nat)) :
    checkWinnerAux b l =
      (match l.find? (fun w => tripleWon b w) with
       | some w => cellAt b w.1
       | none => "") := by
  induction l with
  | nil => rfl
  | cons w ws ih =>
    rw [checkWinnerAux, List.find?_cons]
    cases h : tripleWon b w <;> simp [h, ih]

/-! ## Claims -/

/-- C1.  The rematch transaction of `triggerRematchCmd` with rule
`"winner"` (spec: `winnerStarts`) and previous winner `"O"` (spec: `markB`)
sets the room's turn to `"O"`; with previous winner `""` (a draw) it sets
the turn to the default `"X"` (spec: `markA`), whatever the random draw and
the input room. -/
theorem rematch_turn_rule (r : RoomData) (coin : Nat) :
    (rematchTxnBody "winner" "O" coin r).turn = "O" ∧
    (rematchTxnBody "winner" "" coin r).turn = "X" :=
  ⟨rfl, rfl⟩

/-- C8.  The restart transaction of `RestartGame` preserves the score
counters, the room code, both participant ids, both participant names and
the public flag: only `board`, `winner`, `winningLine`, `turn` and `status`
(the remaining fields of `Room`) are written. -/
theorem restart_frame (r : Room) :
    (restartTxnBody r).winsX = r.winsX ∧
    (restartTxnBody r).winsO = r.winsO ∧
    (restartTxnBody r).code = r.code ∧
    (restartTxnBody r).playerX = r.playerX ∧
    (restartTxnBody r).playerO = r.playerO ∧
    (restartTxnBody r).playerXName = r.playerXName ∧
    (restartTxnBody r).playerOName = r.playerOName ∧
    (restartTxnBody r).isPublic = r.isPublic :=
  ⟨rfl, rfl, rfl, rfl, rfl, rfl, rfl, rfl⟩

/-- C10.  The restart transaction of `RestartGame` never inspects the
status: its result is the same whatever status the input room carries, and
on every input it resets the board to all-empty, clears the winner and the
winning line, and forces `status = "playing"`. -/
theorem restart_ignores_status (r : Room) (s : String) :
    restartTxnBody { r with status := s } = restartTxnBody r ∧
    (restartTxnBody r).status = "playing" ∧
    (restartTxnBody r).board = emptyBoard ∧
    (restartTxnBody r).winner = "" ∧
    (restartTxnBody r).winningLine = [] :=
  ⟨rfl, rfl, rfl, rfl, rfl⟩

/-- C2.  For every raw document, the sanitized room's board has exactly 9
entries, and every entry whose raw counterpart is missing (index beyond the
raw board) or unparseable (neither a string nor a number) equals the
empty-cell value `" "`. -/
theorem sanitize_board_nine_defaults (code : String) (raw : RawRoom) :
    (sanitizeRoom code raw).board.length = 9 ∧
    ∀ i : Nat, i < 9 →
      (raw.board[i]? = none ∨ raw.board[i]? = some JVal.other) →
      (sanitizeRoom code raw).board[i]? = some " " := by
  constructor
  · simp [sanitizeRoom, sanitizeBoard]
  · intro i hi h
    have hmap : (sanitizeRoom code raw).board[i]? =
        some (match raw.board[i]? with
              | some v => cellOfJVal v
              | none => " ") := by
      simp [sanitizeRoom, sanitizeBoard, List.getElem?_map, List.getElem?_range, hi]
    rcases h with h | h
    · rw [hmap, h]
    · rw [hmap, h]
      rfl

/-- C2 witness: a raw board mixing a string, numbers, an unparseable entry
and missing tails sanitizes to a 9-entry board whose unparseable and
missing slots are `" "`. -/
theorem sanitize_board_nine_defaults_witness :
    (sanitizeRoom "AB3D" { board := [.str "X", .numF 0, .other, .numI 7] }).board.length = 9 ∧
    (sanitizeRoom "AB3D" { board := [.str "X", .numF 0, .other, .numI 7] }).board[2]? = some " " ∧
    (sanitizeRoom "AB3D" { board := [.str "X", .numF 0, .other, .numI 7] }).board[5]? = some " " := by
  have h := sanitize_board_nine_defaults "AB3D" { board := [.str "X", .numF 0, .other, .numI 7] }
  exact ⟨h.1, h.2 2 (by decide) (Or.inr rfl), h.2 5 (by decide) (Or.inl rfl)⟩

/-- C5.  `checkWinner` scans the 8 winning triples in the fixed order rows
top-to-bottom, then columns left-to-right, then the two diagonals, and
returns the mark of the first triple whose three cells are equal and
non-empty — the empty string when no triple matches. -/
theorem checkWinner_first_matching_triple (b : List String) :
    checkWinner b =
      (match ([(0, 1, 2), (3, 4, 5), (6, 7, 8),
               (0, 3, 6), (1, 4, 7), (2, 5, 8),
               (0, 4, 8), (2, 4, 6)] : List (Nat × Nat × Nat)).find?
          (fun w => decide (b.getD w.1 " " ≠ " " ∧ b.getD w.1 " " = b.getD w.2.1 " " ∧
            b.getD w.2.1 " " = b.getD w.2.2 " ")) with
       | some w => b.getD w.1 " "
       | none => "") := by
  rw [checkWinner, checkWinnerAux_eq_find]
  rfl

/-- C6.  Every room returned by `GetPublicRooms` carries `isPublic = true`,
and the returned list is sorted in ascending order of room code. -/
theorem getPublicRooms_public_sorted (rawMap : List (String × RawRoom)) :
    (∀ r ∈ GetPublicRooms rawMap, r.isPublic = true) ∧
    (GetPublicRooms rawMap).Pairwise (fun a b => a.code ≤ b.code) := by
  constructor
  · intro r hr
    rw [GetPublicRooms, List.mem_mergeSort] at hr
    rcases List.mem_map.mp hr with ⟨p, hp, hr⟩
    have hpub := (List.mem_filter.mp hp).2
    rw [← hr, sanitizeRoom_isPublic]
    exact hpub
  · have h := @List.sorted_mergeSort Room
      (fun a b : Room => decide (a.code ≤ b.code))
      (fun a b c hab hbc => by
        simp only [decide_eq_true_eq] at *
        exact le_trans hab hbc)
      (fun a b => by
        simp only [Bool.or_eq_true, decide_eq_true_eq]
        exact le_total a.code b.code)
      ((rawMap.filter fun p => p.2.isPublic).map fun p => sanitizeRoom p.1 p.2)
    exact h.imp fun hab => by simpa using hab

/-- C7.  Creating a room with a non-empty host id and then reading it back
through the sanitizing read path returns exactly the created document: a
room with `status = "waiting"`, an empty `playerO` and `isPublic = true`. -/
theorem create_get_roundtrip (store : Store) (code pid name : String)
    (h : pid ≠ "") :
    GetRoom (CreateRoom store code pid name true) code =
      some (createRoomDoc code pid name true) ∧
    (createRoomDoc code pid name true).status = "waiting" ∧
    (createRoomDoc code pid name true).playerO = "" ∧
    (createRoomDoc code pid name true).isPublic = true := by
  refine ⟨?_, rfl, rfl, rfl⟩
  rw [GetRoom, CreateRoom]
  rw [getRaw_setRaw]
  have hX : (roomToRaw (createRoomDoc code pid name true)).playerX = pid := rfl
  rw [if_neg (by rw [hX]; exact h)]
  have : sanitizeRoom code (roomToRaw (createRoomDoc code pid name true)) =
      createRoomDoc code pid name true := by
    simp only [sanitizeRoom, roomToRaw, createRoomDoc, ite_self]
    rfl
  rw [this]

/-- C7 witness: the concrete round-trip of the spec on an empty store. -/
theorem create_get_roundtrip_witness :
    ("p1" : String) ≠ "" ∧
    GetRoom (CreateRoom (fun _ => none) "AB3D" "p1" "Alice" true) "AB3D" =
      some (createRoomDoc "AB3D" "p1" "Alice" true) :=
  ⟨by decide, (create_get_roundtrip (fun _ => none) "AB3D" "p1" "Alice" (by decide)).1⟩

/-- C9.  The join transaction body is idempotent for the same joiner id:
when `playerO` already equals the joining id it succeeds, re-writing the
slot and forcing `status = "playing"`; the `"room is full"` failure occurs
exactly when the slot is held by a different, non-empty id. -/
theorem join_same_id_idempotent (raw : RawRoom) (pid name : String)
    (hX : raw.playerX ≠ "") :
    (raw.playerO = pid →
      joinTxnBody pid name raw =
        .ok { raw with playerO := pid, playerOName := name, status := "playing" }) ∧
    (joinTxnBody pid name raw = .error "room is full" ↔
      raw.playerO ≠ "" ∧ raw.playerO ≠ pid) := by
  constructor
  · intro hO
    rw [joinTxnBody, if_neg hX, if_neg (by simp [hO])]
  · by_cases h : raw.playerO ≠ "" ∧ raw.playerO ≠ pid <;>
      simp [joinTxnBody, hX, h]

/-- C9 witness: a room already joined by `"p2"` accepts a repeated join by
`"p2"`, re-writing the slot. -/
theorem join_same_id_idempotent_witness :
    joinTxnBody "p2" "Bob" { playerX := "p1", playerO := "p2", status := "playing" } =
      .ok { playerX := "p1", playerO := "p2", playerOName := "Bob", status := "playing" } :=
  (join_same_id_idempotent { playerX := "p1", playerO := "p2", status := "playing" }
    "p2" "Bob" (by decide)).1 rfl

/-- C4.  The join transaction: on a room whose `playerO` slot is held by a
different id it fails with `"room is full"` and leaves the store unchanged;
on an empty slot it writes `playerO`, `playerOName` and
`status = "playing"`.  Hence, serializing two joins with distinct non-empty
ids on the same fresh room, the first succeeds with `status = "playing"`
and the second fails with `"room is full"` without touching the store. -/
theorem join_race (store : Store) (code pid name pid2 name2 : String)
    (hX : (getRaw store code).playerX ≠ "") :
    ((getRaw store code).playerO ≠ "" → (getRaw store code).playerO ≠ pid →
      JoinRoom store code pid name = (store, some "room is full")) ∧
    ((getRaw store code).playerO = "" →
      JoinRoom store code pid name =
        (setRaw store code
          { getRaw store code with
            playerO := pid, playerOName := name, status := "playing" }, none)) ∧
    ((getRaw store code).playerO = "" → pid ≠ "" → pid2 ≠ pid →
      (JoinRoom store code pid name).2 = none ∧
      (getRaw (JoinRoom store code pid name).1 code).status = "playing" ∧
      JoinRoom (JoinRoom store code pid name).1 code pid2 name2 =
        ((JoinRoom store code pid name).1, some "room is full")) := by
  have hfull : ∀ raw : RawRoom, raw.playerX ≠ "" → raw.playerO ≠ "" → raw.playerO ≠ pid2 →
      JoinRoom (setRaw store code raw) code pid2 name2 =
        (setRaw store code raw, some "room is full") := by
    intro raw h1 h2 h3
    rw [JoinRoom, runTxn, getRaw_setRaw, joinTxnBody, if_neg h1, if_pos ⟨h2, h3⟩]
  refine ⟨fun h1 h2 => ?_, fun hO => ?_, fun hO hpid hne => ?_⟩
  · rw [JoinRoom, runTxn, joinTxnBody, if_neg hX, if_pos ⟨h1, h2⟩]
  · rw [JoinRoom, runTxn, joinTxnBody, if_neg hX, if_neg (by simp [hO])]
  · have hstep : JoinRoom store code pid name =
        (setRaw store code
          { getRaw store code with
            playerO := pid, playerOName := name, status := "playing" }, none) := by
      rw [JoinRoom, runTxn, joinTxnBody, if_neg hX, if_neg (by simp [hO])]
    rw [hstep]
    exact ⟨rfl, by rw [getRaw_setRaw], hfull _ hX hpid (Ne.symm hne)⟩

/-- C4 witness: on a store holding one fresh room hosted by `"p1"`, a join
by `"p2"` succeeds with `status = "playing"` and a subsequent join by
`"p3"` fails with `"room is full"`. -/
theorem join_race_witness :
    (JoinRoom (setRaw (fun _ => none) "AB3D" { playerX := "p1" }) "AB3D" "p2" "Bob").2 = none ∧
    (getRaw (JoinRoom (setRaw (fun _ => none) "AB3D" { playerX := "p1" })
        "AB3D" "p2" "Bob").1 "AB3D").status = "playing" ∧
    JoinRoom (JoinRoom (setRaw (fun _ => none) "AB3D" { playerX := "p1" })
        "AB3D" "p2" "Bob").1 "AB3D" "p3" "Carol" =
      ((JoinRoom (setRaw (fun _ => none) "AB3D" { playerX := "p1" })
        "AB3D" "p2" "Bob").1, some "room is full") :=
  (join_race (setRaw (fun _ => none) "AB3D" { playerX := "p1" })
    "AB3D" "p2" "Bob" "p3" "Carol" (by decide)).2.2 (by decide) (by decide) (by decide)

/-- A concrete room whose cell 0 is already occupied by `"O"` while it is
`"X"`'s turn: the input refuting C3 as stated. -/
def roomOccupied : Room :=
  { code := "AB3D"
    board := ["O", " ", " ", " ", " ", " ", " ", " ", " "]
    turn := "X"
    playerX := "p1"
    playerO := "p2"
    status := "playing" }

/-- C3 counterexample.  The claim says a move whose target cell is not
empty fails with `InvalidMove` and changes no state.  The write path
`UpdateMove` has no failure outcome at all: applied at occupied cell 0 it
changes the room, overwriting the cell with the mover's mark. -/
theorem updateMove_overwrites_occupied_cell :
    cellAt roomOccupied.board 0 ≠ " " ∧
    UpdateMove 0 roomOccupied ≠ roomOccupied ∧
    cellAt (UpdateMove 0 roomOccupied).board 0 = "X" := by
  decide

/-- C3 amended.  `UpdateMove` itself never validates; the rejection of an
invalid move lives in the UI guard of `updateGame`: when it is not the
caller's turn or the target cell is not empty, no write command is issued
and the room is unchanged — there is no `InvalidMove` error value — and
the cursor bounds keep the index inside the 9-cell range.  When the guard
passes, exactly `UpdateMove` at the cursor's index is issued. -/
theorem move_guard_rejects_silently (mySide : String) (cursorR cursorC : Nat)
    (r : Room) (hR : cursorR ≤ 2) (hC : cursorC ≤ 2) :
    cursorR * 3 + cursorC < 9 ∧
    (¬(r.turn = mySide ∧ cellAt r.board (cursorR * 3 + cursorC) = " ") →
      guardedMove mySide cursorR cursorC r = none) ∧
    (r.turn = mySide → cellAt r.board (cursorR * 3 + cursorC) = " " →
      guardedMove mySide cursorR cursorC r =
        some (UpdateMove (cursorR * 3 + cursorC) r)) := by
  refine ⟨by omega, fun h => ?_, fun h1 h2 => ?_⟩
  · rw [guardedMove, if_neg h]
  · rw [guardedMove, if_pos ⟨h1, h2⟩]

/-- C3 amended witness: on the occupied-cell room the guard issues no
write, and the index stays in range. -/
theorem move_guard_rejects_silently_witness :
    (0 : Nat) * 3 + 0 < 9 ∧ guardedMove "X" 0 0 roomOccupied = none := by
  have h := move_guard_rejects_silently "X" 0 0 roomOccupied (by decide) (by decide)
  exact ⟨h.1, h.2.1 (by decide)⟩

end TTT
